import Mathlib

/-!
A shallow embedding of the smart-pointer library of `src/shared.h`,
`src/weak.h` and `src/unique.h`.

Control blocks carry strong/weak reference counts (`std::size_t`, modelled
as `Nat` with explicit wrap-around modulo `2 ^ 64`) plus an instrumentation
counter `destroys` recording how many times the pointee-destruction hook
`OnZeroStrong` has run.  `SharedPtr` / `WeakPtr` instances are values holding
a raw address and an optional control-block index into an explicit heap;
every operation is explicit state passing over that heap and additionally
returns the list of count-mutating events it performed, in order.
-/

/-- Modulus of the C++ `std::size_t` counters (64 bits). -/
def sizeMod : Nat := 2 ^ 64

/-- `std::size_t` increment (`++x`), wrapping modulo `2 ^ 64`. -/
def wrapInc (n : Nat) : Nat := (n + 1) % sizeMod

/-- `std::size_t` decrement (`--x`), wrapping modulo `2 ^ 64`. -/
def wrapDec (n : Nat) : Nat := (n + (sizeMod - 1)) % sizeMod

/-- `std::size_t` addition (`strong_ + weak_`), wrapping modulo `2 ^ 64`. -/
def wrapAdd (a b : Nat) : Nat := (a + b) % sizeMod

/-- A raw `T*` address; `none` models `nullptr`. -/
abbrev Addr := Option Nat

/-- The state of a `ControlBlockBase` (src/shared.h:7): `strong_` starts at 1,
`weak_` at 0.  `destroys` is instrumentation only: the number of times the
virtual hook `OnZeroStrong` has run, i.e. how often the pointee was
destroyed (`ControlBlockPointer::OnZeroStrong` deletes the held pointer,
`ControlBlockEmplace::OnZeroStrong` destroys the emplaced object in place;
both destroy the pointee exactly when invoked). -/
structure CBlock where
  strong : Nat
  weak : Nat
  destroys : Nat
deriving DecidableEq

namespace CBlock

/-- `ControlBlockBase::AddStrong` (src/shared.h:12): `++strong_`. -/
def AddStrong (b : CBlock) : CBlock :=
  { b with strong := wrapInc b.strong }

/-- `ControlBlockBase::AddWeak` (src/shared.h:15): `++weak_`. -/
def AddWeak (b : CBlock) : CBlock :=
  { b with weak := wrapInc b.weak }

/-- `ControlBlockBase::RemoveStrong` (src/shared.h:18): `--strong_`; if
`strong_ == 0` the hook `OnZeroStrong` runs (recorded in `destroys`);
returns `strong_ + weak_ == 0`.  Result: (updated block, whether the hook
ran, the return value). -/
def RemoveStrong (b : CBlock) : CBlock × Bool × Bool :=
  let s := wrapDec b.strong
  let b1 : CBlock :=
    { strong := s
      weak := b.weak
      destroys := if s = 0 then b.destroys + 1 else b.destroys }
  (b1, s == 0, wrapAdd s b.weak == 0)

/-- `ControlBlockBase::RemoveWeak` (src/shared.h:25): `--weak_`; returns
`strong_ + weak_ == 0`. -/
def RemoveWeak (b : CBlock) : CBlock × Bool :=
  let w := wrapDec b.weak
  ({ b with weak := w }, wrapAdd b.strong w == 0)

/-- `ControlBlockBase::GetStrong` (src/shared.h:30). -/
def GetStrong (b : CBlock) : Nat := b.strong

/-- `ControlBlockBase::GetWeak` (src/shared.h:33). -/
def GetWeak (b : CBlock) : Nat := b.weak

end CBlock

/-- The heap of control blocks: index `i` is the block allocated `i`-th;
`none` means that block has been `delete`d (or never allocated). -/
structure Heap where
  blocks : List (Option CBlock)
deriving DecidableEq

namespace Heap

/-- Read block `i`; freed or out-of-range indices read as `none`. -/
def get (h : Heap) (i : Nat) : Option CBlock :=
  h.blocks.getD i none

/-- Overwrite slot `i` (no-op when out of range, which never happens for a
slot that was ever allocated). -/
def set (h : Heap) (i : Nat) (b : Option CBlock) : Heap :=
  ⟨h.blocks.set i b⟩

/-- `new ControlBlock...`: append a fresh block, returning its index. -/
def alloc (h : Heap) (b : CBlock) : Heap × Nat :=
  (⟨h.blocks ++ [some b]⟩, h.blocks.length)

/-- Apply `f` to live block `i` (models a member-function call through a
valid `ControlBlockBase*`). -/
def modifyBlock (h : Heap) (i : Nat) (f : CBlock → CBlock) : Heap :=
  match h.get i with
  | none => h
  | some b => h.set i (some (f b))

end Heap

/-- A count-mutating event on the heap, recorded in program order. -/
inductive Event where
  /-- `new ControlBlockPointer(...)` allocated block `i`. -/
  | allocBlock (i : Nat)
  /-- `block->AddStrong()` on block `i`. -/
  | addStrong (i : Nat)
  /-- `block->AddWeak()` on block `i`. -/
  | addWeak (i : Nat)
  /-- the decrement inside `block->RemoveStrong()` on block `i`. -/
  | removeStrong (i : Nat)
  /-- the decrement inside `block->RemoveWeak()` on block `i`. -/
  | removeWeak (i : Nat)
  /-- `OnZeroStrong()` ran on block `i`: the pointee was destroyed. -/
  | hook (i : Nat)
  /-- `delete block` freed block `i`. -/
  | freeBlock (i : Nat)
deriving DecidableEq

/-- The data members of `SharedPtr<T>` (src/shared.h:258): `ptr_` and
`block_`. -/
structure SharedPtrST where
  ptr : Addr
  block : Option Nat
deriving DecidableEq

/-- The data members of `WeakPtr<T>` (src/weak.h:130): `ptr_` and `block_`. -/
structure WeakPtrST where
  ptr : Addr
  block : Option Nat
deriving DecidableEq

namespace SharedPtr

/-- `SharedPtr()` and `SharedPtr(std::nullptr_t)` (src/shared.h:91, 93):
null pointer, no control block. -/
def mkNull : SharedPtrST := ⟨none, none⟩

/-- `explicit SharedPtr(T* ptr)` (src/shared.h:95): stores `ptr` and
allocates a fresh `ControlBlockPointer` (strong = 1, weak = 0), for any
`ptr`, null included. -/
def fromRaw (h : Heap) (p : Addr) : Heap × SharedPtrST × List Event :=
  let (h1, i) := h.alloc ⟨1, 0, 0⟩
  (h1, ⟨p, some i⟩, [Event.allocBlock i])

/-- `SharedPtr(const SharedPtr&)` (src/shared.h:99): shares `ptr_` and
`block_`, then `AddStrong` when the block is non-null. -/
def copyCtor (h : Heap) (o : SharedPtrST) : Heap × SharedPtrST × List Event :=
  match o.block with
  | none => (h, ⟨o.ptr, none⟩, [])
  | some i => (h.modifyBlock i CBlock.AddStrong, ⟨o.ptr, some i⟩, [Event.addStrong i])

/-- `SharedPtr::Reset()` (src/shared.h:193): nothing on a null block;
otherwise `RemoveStrong` (running `OnZeroStrong` if strong hits 0),
`delete block` when it returns true, then null out `ptr_`/`block_`.
(The freed-block arm is unreachable through valid states: a live
`SharedPtr` never holds a deleted block.) -/
def Reset (h : Heap) (s : SharedPtrST) : Heap × SharedPtrST × List Event :=
  match s.block with
  | none => (h, s, [])
  | some i =>
    match h.get i with
    | none => (h, ⟨none, none⟩, [])
    | some b =>
      let (b1, hk, ret) := b.RemoveStrong
      let evs := [Event.removeStrong i]
        ++ (if hk then [Event.hook i] else [])
        ++ (if ret then [Event.freeBlock i] else [])
      let h1 := if ret then h.set i none else h.set i (some b1)
      (h1, ⟨none, none⟩, evs)

/-- `SharedPtr::Reset(T* ptr, ControlBlockBase* block)` (src/shared.h:216):
early return when `block_ == block`; otherwise `Reset()` then adopt the
pair without touching counts. -/
def ResetPtrBlock (h : Heap) (s : SharedPtrST) (p : Addr) (blk : Option Nat) :
    Heap × SharedPtrST × List Event :=
  if s.block = blk then (h, s, [])
  else
    let (h1, _, e1) := Reset h s
    (h1, ⟨p, blk⟩, e1)

/-- `SharedPtr::Reset(T* ptr)` (src/shared.h:203): early return when
`ptr == ptr_`; otherwise `Reset(ptr, new ControlBlockPointer(ptr))`. -/
def ResetPtr (h : Heap) (s : SharedPtrST) (p : Addr) :
    Heap × SharedPtrST × List Event :=
  if p = s.ptr then (h, s, [])
  else
    let (h1, i) := h.alloc ⟨1, 0, 0⟩
    let (h2, s2, e2) := ResetPtrBlock h1 s p (some i)
    (h2, s2, Event.allocBlock i :: e2)

/-- `SharedPtr(SharedPtr&& other)` (src/shared.h:105): copies `ptr_`/`block_`,
`AddStrong` when non-null, then `other.Reset()`.  Result: (heap, the new
pointer, `other` after the move, events). -/
def moveCtor (h : Heap) (o : SharedPtrST) :
    Heap × SharedPtrST × SharedPtrST × List Event :=
  let (h1, s, e1) := copyCtor h o
  let (h2, o1, e2) := Reset h1 o
  (h2, s, o1, e1 ++ e2)

/-- `SharedPtr::operator=(const SharedPtr&)` (src/shared.h:160).  `same`
models the `this == &other` identity test (when it is true the two
arguments are the same object, so `a = b`).  Otherwise
`Reset(other.Get(), other.GetControlBlock())` then `AddStrong` when the
(new) block is non-null. -/
def assign (h : Heap) (a b : SharedPtrST) (same : Bool) :
    Heap × SharedPtrST × List Event :=
  if same then (h, a, [])
  else
    let (h1, a1, e1) := ResetPtrBlock h a b.ptr b.block
    match a1.block with
    | none => (h1, a1, e1)
    | some i => (h1.modifyBlock i CBlock.AddStrong, a1, e1 ++ [Event.addStrong i])

/-- `SharedPtr::operator=(SharedPtr&&)` (src/shared.h:171): as copy
assignment, then `other.Reset()`.  Result: (heap, destination, source after
the move, events). -/
def moveAssign (h : Heap) (a b : SharedPtrST) (same : Bool) :
    Heap × SharedPtrST × SharedPtrST × List Event :=
  if same then (h, a, a, [])
  else
    let (h1, a1, e1) := ResetPtrBlock h a b.ptr b.block
    let (h2, a2, e2) :=
      match a1.block with
      | none => (h1, a1, e1)
      | some i => (h1.modifyBlock i CBlock.AddStrong, a1, e1 ++ [Event.addStrong i])
    let (h3, b1, e3) := Reset h2 b
    (h3, a2, b1, e2 ++ e3)

/-- `SharedPtr::UseCount` (src/shared.h:248): 0 on a null block, else
`block_->GetStrong()`.  (The freed-block arm is unreachable through valid
states.) -/
def UseCount (h : Heap) (s : SharedPtrST) : Nat :=
  match s.block with
  | none => 0
  | some i =>
    match h.get i with
    | none => 0
    | some b => b.GetStrong

/-- `SharedPtr::operator bool` (src/shared.h:254): `ptr_ != nullptr`. -/
def toBool (s : SharedPtrST) : Bool := s.ptr.isSome

end SharedPtr

namespace WeakPtr

/-- `WeakPtr()` (src/weak.h:13). -/
def mkNull : WeakPtrST := ⟨none, none⟩

/-- `WeakPtr(const WeakPtr&)` (src/weak.h:15): shares the members, then
`AddWeak` when the block is non-null. -/
def copyCtor (h : Heap) (o : WeakPtrST) : Heap × WeakPtrST × List Event :=
  match o.block with
  | none => (h, ⟨o.ptr, none⟩, [])
  | some i => (h.modifyBlock i CBlock.AddWeak, ⟨o.ptr, some i⟩, [Event.addWeak i])

/-- `WeakPtr(const SharedPtr<T>&)` (src/weak.h:43): demotion; shares the
members and `AddWeak`s. -/
def fromShared (h : Heap) (s : SharedPtrST) : Heap × WeakPtrST × List Event :=
  match s.block with
  | none => (h, ⟨s.ptr, none⟩, [])
  | some i => (h.modifyBlock i CBlock.AddWeak, ⟨s.ptr, some i⟩, [Event.addWeak i])

/-- `WeakPtr::Reset()` (src/weak.h:78): nothing on a null block; otherwise
`RemoveWeak`, `delete block` when it returns true, then null out. -/
def Reset (h : Heap) (w : WeakPtrST) : Heap × WeakPtrST × List Event :=
  match w.block with
  | none => (h, w, [])
  | some i =>
    match h.get i with
    | none => (h, ⟨none, none⟩, [])
    | some b =>
      let (b1, ret) := b.RemoveWeak
      let evs := [Event.removeWeak i] ++ (if ret then [Event.freeBlock i] else [])
      let h1 := if ret then h.set i none else h.set i (some b1)
      (h1, ⟨none, none⟩, evs)

/-- `WeakPtr::Reset(T* ptr, ControlBlockBase* block)` (src/weak.h:89): early
return when `block_ == block`; otherwise `Reset()`, adopt, then `AddWeak`
when the new block is non-null. -/
def ResetPtrBlock (h : Heap) (w : WeakPtrST) (p : Addr) (blk : Option Nat) :
    Heap × WeakPtrST × List Event :=
  if w.block = blk then (h, w, [])
  else
    let (h1, _, e1) := Reset h w
    match blk with
    | none => (h1, ⟨p, none⟩, e1)
    | some i => (h1.modifyBlock i CBlock.AddWeak, ⟨p, some i⟩, e1 ++ [Event.addWeak i])

/-- `WeakPtr(WeakPtr&& other)` (src/weak.h:20): copy then `other.Reset()`. -/
def moveCtor (h : Heap) (o : WeakPtrST) :
    Heap × WeakPtrST × WeakPtrST × List Event :=
  let (h1, w, e1) := copyCtor h o
  let (h2, o1, e2) := Reset h1 o
  (h2, w, o1, e1 ++ e2)

/-- `WeakPtr::operator=(const WeakPtr&)` (src/weak.h:52): identity guard,
then `Reset(other.Get(), other.GetControlBlock())`. -/
def assign (h : Heap) (a b : WeakPtrST) (same : Bool) :
    Heap × WeakPtrST × List Event :=
  if same then (h, a, [])
  else ResetPtrBlock h a b.ptr b.block

/-- `WeakPtr::operator=(WeakPtr&&)` (src/weak.h:59): identity guard, then
`Reset(other.Get(), other.GetControlBlock())`, then `other.Reset()`. -/
def moveAssign (h : Heap) (a b : WeakPtrST) (same : Bool) :
    Heap × WeakPtrST × WeakPtrST × List Event :=
  if same then (h, a, a, [])
  else
    let (h1, a1, e1) := ResetPtrBlock h a b.ptr b.block
    let (h2, b1, e2) := Reset h1 b
    (h2, a1, b1, e1 ++ e2)

/-- `WeakPtr::UseCount` (src/weak.h:110): 0 on a null block, else
`block_->GetStrong()`. -/
def UseCount (h : Heap) (w : WeakPtrST) : Nat :=
  match w.block with
  | none => 0
  | some i =>
    match h.get i with
    | none => 0
    | some b => b.GetStrong

/-- `WeakPtr::Expired` (src/weak.h:116): `UseCount() == 0`. -/
def Expired (h : Heap) (w : WeakPtrST) : Bool := UseCount h w == 0

end WeakPtr

/-- The exception type `BadWeakPtr` thrown by the promoting constructor. -/
inductive BadWeakPtr where
  | mk
deriving DecidableEq

namespace SharedPtr

/-- `explicit SharedPtr(const WeakPtr<T>&)` (src/shared.h:146): throws
`BadWeakPtr` when `other.Expired()`; otherwise adopts `ptr_`/`block_` and
`AddStrong`s when the block is non-null. -/
def fromWeak (h : Heap) (w : WeakPtrST) :
    Except BadWeakPtr (Heap × SharedPtrST × List Event) :=
  if WeakPtr.Expired h w then Except.error BadWeakPtr.mk
  else
    match w.block with
    | none => Except.ok (h, ⟨w.ptr, none⟩, [])
    | some i =>
      Except.ok (h.modifyBlock i CBlock.AddStrong, ⟨w.ptr, some i⟩, [Event.addStrong i])

/-- Whether an `Except` result is the error case (the exception escaping to
the caller). -/
def isError (e : Except BadWeakPtr (Heap × SharedPtrST × List Event)) : Bool :=
  match e with
  | Except.error _ => true
  | Except.ok _ => false

end SharedPtr

namespace WeakPtr

/-- `WeakPtr::Lock` (src/weak.h:119): `Expired() ? SharedPtr<T>() :
SharedPtr(*this)`.  In the non-expired branch the promoting constructor
cannot throw (it throws only when expired), so the error arm below is
unreachable. -/
def Lock (h : Heap) (w : WeakPtrST) : Heap × SharedPtrST × List Event :=
  if Expired h w then (h, SharedPtr.mkNull, [])
  else
    match SharedPtr.fromWeak h w with
    | Except.ok r => r
    | Except.error _ => (h, SharedPtr.mkNull, [])

end WeakPtr

/-- The data member of `UniquePtr<T, D>` (src/unique.h:110): the held raw
address (`ptr_.GetFirst()`; the deleter slot is modelled by the invocation
record of `Reset` below). -/
structure UniquePtrST where
  ptr : Addr
deriving DecidableEq

namespace UniquePtr

/-- `UniquePtr::Reset(T* ptr)` (src/unique.h:69; the array form at
src/unique.h:165 is textually identical): `tmp_ptr = ptr_; ptr_ = ptr;
if (tmp_ptr) deleter(tmp_ptr);`.  Each invocation of the cleanup policy is
recorded as a pair (the value readable through the pointer at the moment
the policy runs, the address passed to the policy). -/
def Reset (s : UniquePtrST) (p : Addr) : UniquePtrST × List (Addr × Nat) :=
  let tmp := s.ptr
  let s1 : UniquePtrST := ⟨p⟩
  match tmp with
  | some a => (s1, [(s1.ptr, a)])
  | none => (s1, [])

end UniquePtr

/-- `n` successive copy constructions from `s` (src/shared.h:99), returning
the final heap and the list of copies made. -/
def mkCopies (h : Heap) (s : SharedPtrST) : Nat → Heap × List SharedPtrST
  | 0 => (h, [])
  | n + 1 =>
    ((mkCopies (SharedPtr.copyCtor h s).1 s n).1,
     (SharedPtr.copyCtor h s).2.1 :: (mkCopies (SharedPtr.copyCtor h s).1 s n).2)

/-- Destroying a list of `SharedPtr` instances in order: each destructor
(src/shared.h:186) runs `Reset()`.  Returns the final heap and the
concatenated event trace. -/
def destroyAll : Heap → List SharedPtrST → Heap × List Event
  | h, [] => (h, [])
  | h, p :: rest =>
    ((destroyAll (SharedPtr.Reset h p).1 rest).1,
     (SharedPtr.Reset h p).2.2 ++ (destroyAll (SharedPtr.Reset h p).1 rest).2)

/-- Number of pointee destructions (`OnZeroStrong` runs) in an event list. -/
def countHooks (evs : List Event) : Nat :=
  (evs.filter fun e => match e with | Event.hook _ => true | _ => false).length

/-! ## Arithmetic and heap helper lemmas -/

theorem sizeMod_eq : sizeMod = 18446744073709551616 := by norm_num [sizeMod]

theorem wrapDec_eq {n : Nat} (h1 : 1 ≤ n) (h2 : n ≤ sizeMod) :
    wrapDec n = n - 1 := by
  have hM := sizeMod_eq
  unfold wrapDec
  have h3 : n + (sizeMod - 1) = sizeMod + (n - 1) := by omega
  rw [h3, Nat.add_mod_left, Nat.mod_eq_of_lt (by omega)]

theorem wrapInc_eq {n : Nat} (h : n + 1 < sizeMod) : wrapInc n = n + 1 :=
  Nat.mod_eq_of_lt h

theorem wrapAdd_eq {a b : Nat} (h : a + b < sizeMod) : wrapAdd a b = a + b :=
  Nat.mod_eq_of_lt h

theorem Heap.get_some_lt {h : Heap} {i : Nat} {b : CBlock}
    (hg : h.get i = some b) : i < h.blocks.length := by
  by_contra hlt
  rw [Heap.get, List.getD_eq_default _ _ (by omega)] at hg
  exact Option.noConfusion hg

theorem Heap.get_set_self {h : Heap} {i : Nat} (hlt : i < h.blocks.length)
    (b : Option CBlock) : (h.set i b).get i = b := by
  simp [Heap.get, Heap.set, List.getD_eq_getElem?_getD, List.getElem?_set_self hlt]

theorem Heap.get_set_ne {h : Heap} {i j : Nat} (hne : i ≠ j)
    (b : Option CBlock) : (h.set i b).get j = h.get j := by
  simp [Heap.get, Heap.set, List.getD_eq_getElem?_getD, List.getElem?_set_ne hne]

theorem Heap.get_alloc_self (h : Heap) (b : CBlock) :
    (h.alloc b).1.get (h.alloc b).2 = some b := by
  simp [Heap.get, Heap.alloc, List.getD_eq_getElem?_getD, List.getElem?_concat_length]

theorem Heap.get_alloc_lt {h : Heap} {j : Nat} (hlt : j < h.blocks.length)
    (b : CBlock) : (h.alloc b).1.get j = h.get j := by
  simp [Heap.get, Heap.alloc, List.getD_eq_getElem?_getD, List.getElem?_append, hlt]

theorem Heap.length_set (h : Heap) (i : Nat) (b : Option CBlock) :
    (h.set i b).blocks.length = h.blocks.length := by
  simp [Heap.set]

theorem Heap.get_modifyBlock_self {h : Heap} {i : Nat} {b : CBlock}
    (hg : h.get i = some b) (f : CBlock → CBlock) :
    (h.modifyBlock i f).get i = some (f b) := by
  rw [Heap.modifyBlock, hg]
  exact Heap.get_set_self (Heap.get_some_lt hg) _

/-! ## Claims -/

/-- Claim C9: a `SharedPtr` constructed by the explicit raw-pointer
constructor from a null raw address still allocates a referencing control
block, so its `UseCount()` returns 1 while `operator bool()` returns false;
a default-constructed or nullptr-constructed `SharedPtr` (both are
`mkNull`) has no control block and `UseCount()` returns 0. -/
theorem claim_C9 (h : Heap) :
    SharedPtr.UseCount (SharedPtr.fromRaw h none).1 (SharedPtr.fromRaw h none).2.1 = 1
    ∧ SharedPtr.toBool (SharedPtr.fromRaw h none).2.1 = false
    ∧ ((SharedPtr.fromRaw h none).2.1.block).isSome = true
    ∧ SharedPtr.mkNull.block = none
    ∧ SharedPtr.UseCount h SharedPtr.mkNull = 0 := by
  refine ⟨?_, rfl, rfl, rfl, rfl⟩
  simp [SharedPtr.fromRaw, SharedPtr.UseCount, Heap.alloc, Heap.get,
    List.getD_eq_getElem?_getD, List.getElem?_concat_length, CBlock.GetStrong]

/-- Claim C10: every `SharedPtr`/`WeakPtr` operation checks the control-block
member for null before touching any count: on a default-constructed (null)
pointer, copy construction, move construction, copy/move assignment,
`Reset()` and `UseCount()` leave the heap unchanged (no count is modified,
no event is emitted), leave the pointer null with a null stored address,
and `UseCount()` returns 0. -/
theorem claim_C10 (h : Heap) :
    SharedPtr.copyCtor h SharedPtr.mkNull = (h, SharedPtr.mkNull, [])
    ∧ SharedPtr.moveCtor h SharedPtr.mkNull = (h, SharedPtr.mkNull, SharedPtr.mkNull, [])
    ∧ SharedPtr.assign h SharedPtr.mkNull SharedPtr.mkNull false = (h, SharedPtr.mkNull, [])
    ∧ SharedPtr.moveAssign h SharedPtr.mkNull SharedPtr.mkNull false
        = (h, SharedPtr.mkNull, SharedPtr.mkNull, [])
    ∧ SharedPtr.Reset h SharedPtr.mkNull = (h, SharedPtr.mkNull, [])
    ∧ SharedPtr.UseCount h SharedPtr.mkNull = 0
    ∧ SharedPtr.mkNull.ptr = none
    ∧ WeakPtr.copyCtor h WeakPtr.mkNull = (h, WeakPtr.mkNull, [])
    ∧ WeakPtr.moveCtor h WeakPtr.mkNull = (h, WeakPtr.mkNull, WeakPtr.mkNull, [])
    ∧ WeakPtr.assign h WeakPtr.mkNull WeakPtr.mkNull false = (h, WeakPtr.mkNull, [])
    ∧ WeakPtr.moveAssign h WeakPtr.mkNull WeakPtr.mkNull false
        = (h, WeakPtr.mkNull, WeakPtr.mkNull, [])
    ∧ WeakPtr.Reset h WeakPtr.mkNull = (h, WeakPtr.mkNull, [])
    ∧ WeakPtr.UseCount h WeakPtr.mkNull = 0
    ∧ WeakPtr.mkNull.ptr = none :=
  ⟨rfl, rfl, rfl, rfl, rfl, rfl, rfl, rfl, rfl, rfl, rfl, rfl, rfl, rfl⟩

/-- Claim C5: `RemoveStrong` decrements the strong count by one, invokes the
pointee-destruction hook (`OnZeroStrong`, recorded in `destroys`) exactly
when the strong count reaches zero, and returns true iff strong + weak is
now zero; `RemoveWeak` decrements the weak count by one and returns true
iff strong + weak is now zero.  Stated for counts in the `size_t` range
with at least one reference of the removed kind held. -/
theorem claim_C5 (b c : CBlock)
    (hb1 : 1 ≤ b.strong) (hb2 : b.strong + b.weak ≤ sizeMod)
    (hc1 : 1 ≤ c.weak) (hc2 : c.strong + c.weak ≤ sizeMod) :
    (b.RemoveStrong).1.strong = b.strong - 1
    ∧ (b.RemoveStrong).1.weak = b.weak
    ∧ ((b.RemoveStrong).2.1 = true ↔ b.strong = 1)
    ∧ (b.RemoveStrong).1.destroys
        = (if b.strong = 1 then b.destroys + 1 else b.destroys)
    ∧ ((b.RemoveStrong).2.2 = true ↔ b.strong - 1 + b.weak = 0)
    ∧ (c.RemoveWeak).1.weak = c.weak - 1
    ∧ (c.RemoveWeak).1.strong = c.strong
    ∧ ((c.RemoveWeak).2 = true ↔ c.strong + (c.weak - 1) = 0) := by
  have hM := sizeMod_eq
  have hbd : wrapDec b.strong = b.strong - 1 := wrapDec_eq hb1 (by omega)
  have hcd : wrapDec c.weak = c.weak - 1 := wrapDec_eq hc1 (by omega)
  have hba : wrapAdd (b.strong - 1) b.weak = b.strong - 1 + b.weak :=
    wrapAdd_eq (by omega)
  have hca : wrapAdd c.strong (c.weak - 1) = c.strong + (c.weak - 1) :=
    wrapAdd_eq (by omega)
  have hiff : b.strong - 1 = 0 ↔ b.strong = 1 := by omega
  refine ⟨?_, ?_, ?_, ?_, ?_, ?_, ?_, ?_⟩ <;>
    simp only [CBlock.RemoveStrong, CBlock.RemoveWeak, hbd, hcd, hba, hca,
      beq_iff_eq, hiff]

/-- Witness for C5 at a block with strong = 2, weak = 1 and a block with
strong = 0, weak = 1. -/
theorem claim_C5_witness :
    1 ≤ (2 : Nat)
    ∧ ((⟨2, 1, 0⟩ : CBlock).RemoveStrong).1.strong = 1
    ∧ ((⟨0, 1, 5⟩ : CBlock).RemoveWeak).2 = true :=
  ⟨by norm_num,
   (claim_C5 ⟨2, 1, 0⟩ ⟨0, 1, 5⟩ (by norm_num) (by norm_num [sizeMod])
      (by norm_num) (by norm_num [sizeMod])).1,
   ((claim_C5 ⟨2, 1, 0⟩ ⟨0, 1, 5⟩ (by norm_num) (by norm_num [sizeMod])
      (by norm_num) (by norm_num [sizeMod])).2.2.2.2.2.2.2).2 (by norm_num)⟩

/-- Claim C8: `UniquePtr::Reset(new_address)` invokes the cleanup policy
exactly once, on the previously held address if it was non-null (no
invocation when it was null), and the invocation happens only after the new
address has been stored: the value readable through the pointer at
invocation time (first component of the record) is the new address.  The
single-object form (src/unique.h:69) and the array form (src/unique.h:165)
are textually identical and are both modelled by `UniquePtr.Reset`. -/
theorem claim_C8 (s t : UniquePtrST) (p q : Addr) (a : Nat)
    (hs : s.ptr = none) (ht : t.ptr = some a) :
    UniquePtr.Reset s p = (⟨p⟩, [])
    ∧ UniquePtr.Reset t q = (⟨q⟩, [(q, a)]) := by
  constructor
  · simp [UniquePtr.Reset, hs]
  · simp [UniquePtr.Reset, ht]

/-- Witness for C8: resetting a null pointer runs no cleanup; resetting a
pointer holding address 7 to null runs the cleanup once on 7, with the
pointer already reading null. -/
theorem claim_C8_witness :
    (⟨none⟩ : UniquePtrST).ptr = none
    ∧ (⟨some 7⟩ : UniquePtrST).ptr = some 7
    ∧ UniquePtr.Reset ⟨none⟩ (some 3) = (⟨some 3⟩, [])
    ∧ UniquePtr.Reset ⟨some 7⟩ none = (⟨none⟩, [(none, 7)]) :=
  ⟨rfl, rfl,
   (claim_C8 ⟨none⟩ ⟨some 7⟩ (some 3) none 7 rfl rfl).1,
   (claim_C8 ⟨none⟩ ⟨some 7⟩ (some 3) none 7 rfl rfl).2⟩

/-- The C1 failing run: `SharedPtr p1(new T)` at address 1 (block 0,
strong = 1); `SharedPtr p2 = p1;` (copy construction, strong = 2);
`p1 = p2;` (copy assignment between two distinct instances sharing control
block 0).  Result: (heap, p1 after the assignment, p2). -/
def scenarioC1 : Heap × SharedPtrST × SharedPtrST :=
  let r1 := SharedPtr.fromRaw ⟨[]⟩ (some 1)
  let r2 := SharedPtr.copyCtor r1.1 r1.2.1
  let r3 := SharedPtr.assign r2.1 r1.2.1 r2.2.1 false
  (r3.1, r3.2.1, r2.2.1)

/-- Claim C1 fails on the code: after `p1 = p2` between two distinct
`SharedPtr`s sharing control block 0, both instances still hold block 0 but
`UseCount()` is 3, not 2 — `Reset(ptr, block)` returns early when
`block_ == block` (src/shared.h:217) yet `operator=` still calls
`AddStrong()` (src/shared.h:166).  Destroying both instances then leaves
the block with strong = 1 and `destroys = 0`: the strong count never
reaches zero and the pointee is never destroyed (a leak), violating both
halves of the claimed invariant. -/
theorem claim_C1 :
    scenarioC1.2.1.block = some 0
    ∧ scenarioC1.2.2.block = some 0
    ∧ SharedPtr.UseCount scenarioC1.1 scenarioC1.2.1 = 3
    ∧ (destroyAll scenarioC1.1 [scenarioC1.2.1, scenarioC1.2.2]).1.get 0
        = some ⟨1, 0, 0⟩
    ∧ countHooks (destroyAll scenarioC1.1 [scenarioC1.2.1, scenarioC1.2.2]).2 = 0 := by
  decide

/-- Claim C3: the explicit promotion constructor `SharedPtr(const WeakPtr&)`
raises `BadWeakPtr` (modelled as `Except.error`, propagating to the caller)
if and only if the `WeakPtr` is expired; `Lock()` on an expired `WeakPtr`
instead returns a null `SharedPtr` without raising; and `Lock()` on a
non-expired `WeakPtr` returns a `SharedPtr` sharing the block whose
adoption incremented the strong count by exactly one. -/
theorem claim_C3 (h1 h2 : Heap) (w1 w2 : WeakPtrST)
    (hexp : WeakPtr.Expired h1 w1 = true)
    (hlive : WeakPtr.Expired h2 w2 = false)
    (hbound : WeakPtr.UseCount h2 w2 + 1 < sizeMod) :
    (∀ h0 w0, SharedPtr.isError (SharedPtr.fromWeak h0 w0) = WeakPtr.Expired h0 w0)
    ∧ WeakPtr.Lock h1 w1 = (h1, SharedPtr.mkNull, [])
    ∧ SharedPtr.UseCount (WeakPtr.Lock h2 w2).1 (WeakPtr.Lock h2 w2).2.1
        = WeakPtr.UseCount h2 w2 + 1
    ∧ (WeakPtr.Lock h2 w2).2.1.block = w2.block := by
  obtain ⟨i, hi⟩ : ∃ i, w2.block = some i := by
    cases hb : w2.block
    · simp [WeakPtr.Expired, WeakPtr.UseCount, hb] at hlive
    · exact ⟨_, rfl⟩
  obtain ⟨b, hbg⟩ : ∃ b, h2.get i = some b := by
    cases hg : h2.get i
    · simp [WeakPtr.Expired, WeakPtr.UseCount, hi, hg] at hlive
    · exact ⟨_, rfl⟩
  have hUC : WeakPtr.UseCount h2 w2 = b.GetStrong := by
    simp only [WeakPtr.UseCount, hi, hbg]
  have hlock : WeakPtr.Lock h2 w2
      = (h2.modifyBlock i CBlock.AddStrong, ⟨w2.ptr, some i⟩, [Event.addStrong i]) := by
    simp [WeakPtr.Lock, hlive, SharedPtr.fromWeak, hi]
  refine ⟨?_, ?_, ?_, ?_⟩
  · intro h0 w0
    cases hx : WeakPtr.Expired h0 w0 with
    | true => simp [SharedPtr.fromWeak, SharedPtr.isError, hx]
    | false =>
      cases hb : w0.block <;>
        simp [SharedPtr.fromWeak, SharedPtr.isError, hx, hb]
  · simp [WeakPtr.Lock, hexp]
  · rw [hlock, hUC]
    simp only [SharedPtr.UseCount, Heap.get_modifyBlock_self hbg,
      CBlock.AddStrong, CBlock.GetStrong]
    rw [hUC] at hbound
    exact wrapInc_eq hbound
  · rw [hlock, hi]

/-- Witness for C3: a null (expired) `WeakPtr` over the empty heap, and a
live `WeakPtr` on a block with strong = 1, weak = 1. -/
theorem claim_C3_witness :
    WeakPtr.Expired (⟨[]⟩ : Heap) WeakPtr.mkNull = true
    ∧ WeakPtr.Lock ⟨[]⟩ WeakPtr.mkNull = (⟨[]⟩, SharedPtr.mkNull, [])
    ∧ SharedPtr.UseCount (WeakPtr.Lock ⟨[some ⟨1, 1, 0⟩]⟩ ⟨some 4, some 0⟩).1
        (WeakPtr.Lock ⟨[some ⟨1, 1, 0⟩]⟩ ⟨some 4, some 0⟩).2.1
        = WeakPtr.UseCount ⟨[some ⟨1, 1, 0⟩]⟩ ⟨some 4, some 0⟩ + 1 :=
  ⟨by decide,
   (claim_C3 ⟨[]⟩ ⟨[some ⟨1, 1, 0⟩]⟩ WeakPtr.mkNull ⟨some 4, some 0⟩
      (by decide) (by decide) (by decide)).2.1,
   (claim_C3 ⟨[]⟩ ⟨[some ⟨1, 1, 0⟩]⟩ WeakPtr.mkNull ⟨some 4, some 0⟩
      (by decide) (by decide) (by decide)).2.2.1⟩

/-- `SharedPtr::Reset()` never touches a block other than the one the
instance holds. -/
theorem SharedPtr.Reset_get_ne {h : Heap} {s : SharedPtrST} {i : Nat}
    (hns : ∀ j, s.block = some j → j ≠ i) :
    (SharedPtr.Reset h s).1.get i = h.get i := by
  cases hb : s.block with
  | none => simp [SharedPtr.Reset, hb]
  | some j =>
    have hji : j ≠ i := hns j hb
    cases hg : h.get j with
    | none => simp [SharedPtr.Reset, hb, hg]
    | some b =>
      simp only [SharedPtr.Reset, hb, hg, CBlock.RemoveStrong]
      split <;> exact Heap.get_set_ne hji _

/-- Claim C6, amended: for every `SharedPtr` and raw address `p` with
`p` DIFFERENT from the currently stored address, `Reset(p)` makes the
pointer manage `p` through a freshly allocated referencing control block
with strong count 1, having released its previous reference (the trace is
the allocation followed by exactly the events of `Reset()`); when `p`
equals the stored address the call is an early-return no-op (see the
counterexample `claim_C6_cex`). -/
theorem claim_C6 (h : Heap) (s : SharedPtrST) (p : Addr)
    (hne : p ≠ s.ptr)
    (hvalid : ∀ j, s.block = some j → j < h.blocks.length) :
    (SharedPtr.ResetPtr h s p).2.1 = ⟨p, some h.blocks.length⟩
    ∧ (SharedPtr.ResetPtr h s p).1.get h.blocks.length = some ⟨1, 0, 0⟩
    ∧ SharedPtr.UseCount (SharedPtr.ResetPtr h s p).1 (SharedPtr.ResetPtr h s p).2.1 = 1
    ∧ (SharedPtr.ResetPtr h s p).2.2
        = Event.allocBlock h.blocks.length
            :: (SharedPtr.Reset (h.alloc ⟨1, 0, 0⟩).1 s).2.2 := by
  have hblk : s.block ≠ some h.blocks.length := by
    intro hx
    exact absurd (hvalid _ hx) (lt_irrefl _)
  have hres : SharedPtr.ResetPtr h s p
      = ((SharedPtr.Reset (h.alloc ⟨1, 0, 0⟩).1 s).1,
         ⟨p, some h.blocks.length⟩,
         Event.allocBlock h.blocks.length
           :: (SharedPtr.Reset (h.alloc ⟨1, 0, 0⟩).1 s).2.2) := by
    simp [SharedPtr.ResetPtr, hne, SharedPtr.ResetPtrBlock, Heap.alloc, hblk]
  have hget : (SharedPtr.Reset (h.alloc ⟨1, 0, 0⟩).1 s).1.get h.blocks.length
      = some ⟨1, 0, 0⟩ := by
    rw [SharedPtr.Reset_get_ne]
    · exact Heap.get_alloc_self h ⟨1, 0, 0⟩
    · intro j hj hcontra
      rw [hcontra] at hj
      exact hblk hj
  refine ⟨?_, ?_, ?_, ?_⟩
  · rw [hres]
  · rw [hres]; exact hget
  · rw [hres]
    simp only [SharedPtr.UseCount, hget, CBlock.GetStrong]
  · rw [hres]

/-- Counterexample to C6 as stated: `Reset(new_address)` with `new_address`
EQUAL to the currently stored address is an early-return no-op
(src/shared.h:204): no fresh control block is allocated, the old block is
kept, nothing is released, and `UseCount()` stays 2 instead of 1. -/
theorem claim_C6_cex :
    SharedPtr.ResetPtr ⟨[some ⟨2, 0, 0⟩]⟩ ⟨some 5, some 0⟩ (some 5)
      = (⟨[some ⟨2, 0, 0⟩]⟩, ⟨some 5, some 0⟩, [])
    ∧ SharedPtr.UseCount ⟨[some ⟨2, 0, 0⟩]⟩ ⟨some 5, some 0⟩ = 2 := by
  decide

/-- Witness for C6: resetting a pointer at address 3 (block 0, strong 1) to
the different address 7 yields a fresh block 1 with strong count 1. -/
theorem claim_C6_witness :
    some 7 ≠ (⟨some 3, some 0⟩ : SharedPtrST).ptr
    ∧ (SharedPtr.ResetPtr ⟨[some ⟨1, 0, 0⟩]⟩ ⟨some 3, some 0⟩ (some 7)).2.1
        = ⟨some 7, some 1⟩
    ∧ SharedPtr.UseCount
        (SharedPtr.ResetPtr ⟨[some ⟨1, 0, 0⟩]⟩ ⟨some 3, some 0⟩ (some 7)).1
        (SharedPtr.ResetPtr ⟨[some ⟨1, 0, 0⟩]⟩ ⟨some 3, some 0⟩ (some 7)).2.1 = 1 :=
  ⟨by decide,
   (claim_C6 ⟨[some ⟨1, 0, 0⟩]⟩ ⟨some 3, some 0⟩ (some 7) (by decide)
      (by intro j hj; injection hj with hx; subst hx; decide)).1,
   (claim_C6 ⟨[some ⟨1, 0, 0⟩]⟩ ⟨some 3, some 0⟩ (some 7) (by decide)
      (by intro j hj; injection hj with hx; subst hx; decide)).2.2.1⟩

/-- Claim C7: destroying (resetting) the last `SharedPtr` of a block that
still has `w ≥ 1` weak observers destroys the pointee (`destroys` goes up
by one) but leaves the control block allocated with strong = 0; afterwards
`Expired()` is true for every `WeakPtr` observing that block, which stays
allocated and queryable until the last weak reference is released: a
subsequent `WeakPtr::Reset()` frees the block exactly when it held the
last weak reference (`w = 1`). -/
theorem claim_C7 (h : Heap) (s : SharedPtrST) (i w d : Nat)
    (hs : s.block = some i) (hget : h.get i = some ⟨1, w, d⟩)
    (hw1 : 1 ≤ w) (hw2 : w < sizeMod) :
    (SharedPtr.Reset h s).1.get i = some ⟨0, w, d + 1⟩
    ∧ (∀ wk : WeakPtrST, wk.block = some i →
        WeakPtr.Expired (SharedPtr.Reset h s).1 wk = true)
    ∧ (∀ wk : WeakPtrST, wk.block = some i →
        (WeakPtr.Reset (SharedPtr.Reset h s).1 wk).1.get i
          = if w = 1 then none else some ⟨0, w - 1, d + 1⟩) := by
  have hM := sizeMod_eq
  have hd1 : wrapDec 1 = 0 := wrapDec_eq (le_refl 1) (by omega)
  have ha0 : wrapAdd 0 w = w := (wrapAdd_eq (by omega)).trans (Nat.zero_add w)
  have hwne : (w == 0) = false := by simp; omega
  have hlt : i < h.blocks.length := Heap.get_some_lt hget
  have hheap : (SharedPtr.Reset h s).1 = h.set i (some ⟨0, w, d + 1⟩) := by
    simp [SharedPtr.Reset, hs, hget, CBlock.RemoveStrong, hd1, ha0, hwne]
  have hg1 : (SharedPtr.Reset h s).1.get i = some ⟨0, w, d + 1⟩ := by
    rw [hheap]; exact Heap.get_set_self hlt _
  refine ⟨hg1, ?_, ?_⟩
  · intro wk hwk
    simp [WeakPtr.Expired, WeakPtr.UseCount, hwk, hg1, CBlock.GetStrong]
  · intro wk hwk
    have hdw : wrapDec w = w - 1 := wrapDec_eq hw1 (by omega)
    have haw : wrapAdd 0 (w - 1) = w - 1 :=
      (wrapAdd_eq (by omega)).trans (Nat.zero_add _)
    have hlt2 : i < (SharedPtr.Reset h s).1.blocks.length := by
      rw [hheap, Heap.length_set]; exact hlt
    by_cases hw : w = 1
    · subst hw
      simp only [WeakPtr.Reset, hwk, hg1, CBlock.RemoveWeak, hdw, haw]
      simp [Heap.get_set_self hlt2]
    · have hne1 : (w - 1 == 0) = false := by simp; omega
      simp only [WeakPtr.Reset, hwk, hg1, CBlock.RemoveWeak, hdw, haw, hne1]
      simp [Heap.get_set_self hlt2, hw]

/-- Witness for C7 on a block with strong = 1, weak = 2. -/
theorem claim_C7_witness :
    (⟨some 3, some 0⟩ : SharedPtrST).block = some 0
    ∧ (SharedPtr.Reset ⟨[some ⟨1, 2, 0⟩]⟩ ⟨some 3, some 0⟩).1.get 0 = some ⟨0, 2, 1⟩
    ∧ WeakPtr.Expired (SharedPtr.Reset ⟨[some ⟨1, 2, 0⟩]⟩ ⟨some 3, some 0⟩).1
        ⟨some 3, some 0⟩ = true :=
  ⟨rfl,
   (claim_C7 ⟨[some ⟨1, 2, 0⟩]⟩ ⟨some 3, some 0⟩ 0 2 0 rfl rfl (by decide) (by decide)).1,
   (claim_C7 ⟨[some ⟨1, 2, 0⟩]⟩ ⟨some 3, some 0⟩ 0 2 0 rfl rfl (by decide) (by decide)).2.1
     ⟨some 3, some 0⟩ rfl⟩

/-- Counterexample to C4 as stated: at a concrete input where the
destination holds block 0 (strong 2) and the source holds block 1, copy
assignment's event trace is the release of the old reference FOLLOWED by
the addition of the new one — the new strong reference is not added before
the old one is released, contradicting the claimed order. -/
theorem claim_C4_cex :
    (SharedPtr.assign ⟨[some ⟨2, 0, 0⟩, some ⟨1, 0, 0⟩]⟩ ⟨some 1, some 0⟩
        ⟨some 2, some 1⟩ false).2.2
      = [Event.removeStrong 0, Event.addStrong 1] := by
  decide

/-- Claim C4, amended: when source and destination are distinct objects
with DIFFERENT control blocks, copy assignment releases the old strong
reference first (its trace is exactly `Reset()`'s trace) and only then adds
the new one, adopting the source's address and block; move assignment does
the same and then releases the source; and self-assignment (the
`this == &other` guard) is a no-op leaving heap, members and counts
unchanged.  (When two distinct instances share one control block, copy
assignment instead adds a reference without releasing — the C1 code bug.) -/
theorem claim_C4 (h : Heap) (a b : SharedPtrST) (i j : Nat)
    (ha : a.block = some i) (hbj : b.block = some j) (hij : i ≠ j) :
    (SharedPtr.assign h a b false).2.2
        = (SharedPtr.Reset h a).2.2 ++ [Event.addStrong j]
    ∧ (SharedPtr.assign h a b false).2.1 = ⟨b.ptr, some j⟩
    ∧ (SharedPtr.moveAssign h a b false).2.2.2
        = (SharedPtr.assign h a b false).2.2
            ++ (SharedPtr.Reset (SharedPtr.assign h a b false).1 b).2.2
    ∧ (∀ h0 a0, SharedPtr.assign h0 a0 a0 true = (h0, a0, []))
    ∧ (∀ h0 a0, SharedPtr.moveAssign h0 a0 a0 true = (h0, a0, a0, [])) := by
  have hcond : a.block ≠ some j := by
    rw [ha]
    simp [hij]
  have hrpb : SharedPtr.ResetPtrBlock h a b.ptr (some j)
      = ((SharedPtr.Reset h a).1, ⟨b.ptr, some j⟩, (SharedPtr.Reset h a).2.2) := by
    simp [SharedPtr.ResetPtrBlock, hcond]
  have hassign : SharedPtr.assign h a b false
      = (((SharedPtr.Reset h a).1).modifyBlock j CBlock.AddStrong,
         ⟨b.ptr, some j⟩, (SharedPtr.Reset h a).2.2 ++ [Event.addStrong j]) := by
    simp [SharedPtr.assign, hbj, hrpb]
  refine ⟨?_, ?_, ?_, fun h0 a0 => rfl, fun h0 a0 => rfl⟩
  · rw [hassign]
  · rw [hassign]
  · simp [SharedPtr.moveAssign, hbj, hrpb, hassign, List.append_assoc]

/-- Witness for C4 at two pointers holding distinct blocks 0 and 1. -/
theorem claim_C4_witness :
    (0 : Nat) ≠ 1
    ∧ (SharedPtr.assign ⟨[some ⟨1, 0, 0⟩, some ⟨1, 0, 0⟩]⟩ ⟨none, some 0⟩
          ⟨none, some 1⟩ false).2.2
        = (SharedPtr.Reset ⟨[some ⟨1, 0, 0⟩, some ⟨1, 0, 0⟩]⟩ ⟨none, some 0⟩).2.2
            ++ [Event.addStrong 1] :=
  ⟨by decide,
   (claim_C4 ⟨[some ⟨1, 0, 0⟩, some ⟨1, 0, 0⟩]⟩ ⟨none, some 0⟩ ⟨none, some 1⟩ 0 1
      rfl rfl (by decide)).1⟩


/-- Destroying a list of `ps.length` instances that are all the holders of
one block (strong count = number of holders, no weak observers): the trace
is one plain `RemoveStrong` per destructor except the last, whose
`RemoveStrong` runs `OnZeroStrong` (destroying the pointee) and then frees
the block. -/
theorem destroyAll_spec (ps : List SharedPtrST) :
    ∀ (h : Heap) (i d : Nat),
    (∀ p ∈ ps, p.block = some i) →
    h.get i = some ⟨ps.length, 0, d⟩ →
    1 ≤ ps.length → ps.length ≤ sizeMod →
    (destroyAll h ps).2
      = List.replicate (ps.length - 1) (Event.removeStrong i)
          ++ [Event.removeStrong i, Event.hook i, Event.freeBlock i]
    ∧ (destroyAll h ps).1.get i = none := by
  induction ps with
  | nil =>
    intro h i d _ _ h1 _
    simp at h1
  | cons p rest ih =>
    intro h i d hall hget h1 h2
    have hp : p.block = some i := hall p (List.mem_cons_self _ _)
    have hlt : i < h.blocks.length := Heap.get_some_lt hget
    have hM := sizeMod_eq
    cases rest with
    | nil =>
      have hget1 : h.get i = some ⟨1, 0, d⟩ := by simpa using hget
      have hdec1 : wrapDec 1 = 0 := by
        have hx := wrapDec_eq (le_refl 1) (by omega)
        omega
      have ha00 : wrapAdd 0 0 = 0 := by simp [wrapAdd]
      have hreset : SharedPtr.Reset h p
          = (h.set i none, ⟨none, none⟩,
             [Event.removeStrong i, Event.hook i, Event.freeBlock i]) := by
        simp [SharedPtr.Reset, hp, hget1, CBlock.RemoveStrong, hdec1, ha00]
      constructor
      · show (SharedPtr.Reset h p).2.2 ++ (destroyAll (SharedPtr.Reset h p).1 []).2 = _
        simp [hreset, destroyAll]
      · show (destroyAll (SharedPtr.Reset h p).1 []).1.get i = none
        simp [hreset, destroyAll, Heap.get_set_self hlt]
    | cons q rest1 =>
      have hget1 : h.get i = some ⟨rest1.length + 1 + 1, 0, d⟩ := by simpa using hget
      have h2x : rest1.length + 1 + 1 ≤ sizeMod := by simpa using h2
      have hdec2 : wrapDec (rest1.length + 1 + 1) = rest1.length + 1 := by
        have hx := wrapDec_eq (n := rest1.length + 1 + 1) (by omega) (by omega)
        omega
      have haddn : wrapAdd (rest1.length + 1) 0 = rest1.length + 1 := by
        have hx := wrapAdd_eq (a := rest1.length + 1) (b := 0) (by omega)
        omega
      have hreset : SharedPtr.Reset h p
          = (h.set i (some ⟨rest1.length + 1, 0, d⟩), ⟨none, none⟩,
             [Event.removeStrong i]) := by
        simp [SharedPtr.Reset, hp, hget1, CBlock.RemoveStrong, hdec2, haddn]
      have hget2 : (h.set i (some ⟨rest1.length + 1, 0, d⟩)).get i
          = some ⟨rest1.length + 1, 0, d⟩ := Heap.get_set_self hlt _
      obtain ⟨ihtrace, ihnone⟩ :=
        ih (h.set i (some ⟨rest1.length + 1, 0, d⟩)) i d
          (fun c hc => hall c (List.mem_cons_of_mem _ hc))
          (by simpa using hget2) (by simp)
          (by simp only [List.length_cons]; omega)
      constructor
      · show (SharedPtr.Reset h p).2.2
            ++ (destroyAll (SharedPtr.Reset h p).1 (q :: rest1)).2 = _
        simp only [hreset]
        rw [ihtrace]
        simp [List.replicate_succ]
      · show (destroyAll (SharedPtr.Reset h p).1 (q :: rest1)).1.get i = none
        simp only [hreset]
        exact ihnone

/-- `n` copy constructions from a holder of block `i` raise its strong
count by exactly `n` and produce `n` copies all sharing `ptr_`/`block_`. -/
theorem mkCopies_spec (n : Nat) :
    ∀ (h : Heap) (s : SharedPtrST) (i st w d : Nat),
    s.block = some i →
    h.get i = some ⟨st, w, d⟩ →
    st + n < sizeMod →
    (mkCopies h s n).1.get i = some ⟨st + n, w, d⟩
    ∧ (mkCopies h s n).2.length = n
    ∧ ∀ c ∈ (mkCopies h s n).2, c = SharedPtrST.mk s.ptr (some i) := by
  induction n with
  | zero =>
    intro h s i st w d hs hget hb
    refine ⟨by simpa using hget, rfl, by simp [mkCopies]⟩
  | succ n ih =>
    intro h s i st w d hs hget hb
    have hM := sizeMod_eq
    have hinc : wrapInc st = st + 1 := wrapInc_eq (by omega)
    have hcc : SharedPtr.copyCtor h s
        = (h.modifyBlock i CBlock.AddStrong, ⟨s.ptr, some i⟩, [Event.addStrong i]) := by
      simp [SharedPtr.copyCtor, hs]
    have hget1 : (h.modifyBlock i CBlock.AddStrong).get i = some ⟨st + 1, w, d⟩ := by
      rw [Heap.get_modifyBlock_self hget]
      simp [CBlock.AddStrong, hinc]
    obtain ⟨ih1, ih2, ih3⟩ :=
      ih (h.modifyBlock i CBlock.AddStrong) s i (st + 1) w d hs hget1 (by omega)
    refine ⟨?_, ?_, ?_⟩
    · show (mkCopies (SharedPtr.copyCtor h s).1 s n).1.get i = _
      rw [hcc]
      rw [show st + (n + 1) = st + 1 + n by omega]
      exact ih1
    · show ((SharedPtr.copyCtor h s).2.1 :: (mkCopies (SharedPtr.copyCtor h s).1 s n).2).length = n + 1
      rw [hcc]
      simp [ih2]
    · intro c hc
      simp only [mkCopies, hcc] at hc
      rcases List.mem_cons.mp hc with hc1 | hc1
      · exact hc1
      · exact ih3 c hc1

/-- The C2 run over heap `h`: construct a `SharedPtr` from a raw address
(src/shared.h:95), copy-construct `n - 1` further instances from it, then
destroy all `n` (each destructor runs `Reset()`); result: the event trace. -/
def scenarioC2 (h : Heap) (p : Addr) (n : Nat) : List Event :=
  (destroyAll (mkCopies (SharedPtr.fromRaw h p).1 (SharedPtr.fromRaw h p).2.1 (n - 1)).1
    ((SharedPtr.fromRaw h p).2.1
      :: (mkCopies (SharedPtr.fromRaw h p).1 (SharedPtr.fromRaw h p).2.1 (n - 1)).2)).2

/-- Claim C2: for every `n ≥ 1` (in `size_t` range), constructing a
`SharedPtr` plus `n - 1` copies and destroying all `n` destroys the pointee
exactly once (`countHooks = 1`), and the full event trace shows the
destruction happens exactly at the last destructor: the first `n - 1`
destroys emit only a `RemoveStrong` each, and the single `OnZeroStrong`
(hook) runs during the `n`-th, after its decrement and before the block is
freed. -/
theorem claim_C2 (h : Heap) (p : Addr) (n : Nat) (hn1 : 1 ≤ n) (hn2 : n < sizeMod) :
    scenarioC2 h p n
      = List.replicate (n - 1) (Event.removeStrong h.blocks.length)
          ++ [Event.removeStrong h.blocks.length, Event.hook h.blocks.length,
              Event.freeBlock h.blocks.length]
    ∧ countHooks (scenarioC2 h p n) = 1 := by
  have hM := sizeMod_eq
  have hfr : SharedPtr.fromRaw h p
      = ((h.alloc ⟨1, 0, 0⟩).1, ⟨p, some h.blocks.length⟩,
         [Event.allocBlock h.blocks.length]) := rfl
  have hget1 : (h.alloc ⟨1, 0, 0⟩).1.get h.blocks.length = some ⟨1, 0, 0⟩ :=
    Heap.get_alloc_self h ⟨1, 0, 0⟩
  obtain ⟨hm1, hm2, hm3⟩ :=
    mkCopies_spec (n - 1) (h.alloc ⟨1, 0, 0⟩).1 ⟨p, some h.blocks.length⟩
      h.blocks.length 1 0 0 rfl hget1 (by omega)
  have hm1x : (mkCopies (h.alloc ⟨1, 0, 0⟩).1 ⟨p, some h.blocks.length⟩ (n - 1)).1.get
      h.blocks.length = some ⟨n, 0, 0⟩ := by
    rw [hm1, show 1 + (n - 1) = n by omega]
  have hlen : ((⟨p, some h.blocks.length⟩ : SharedPtrST)
      :: (mkCopies (h.alloc ⟨1, 0, 0⟩).1 ⟨p, some h.blocks.length⟩ (n - 1)).2).length
      = n := by
    simp [hm2]
    omega
  obtain ⟨htrace, _⟩ :=
    destroyAll_spec
      ((⟨p, some h.blocks.length⟩ : SharedPtrST)
        :: (mkCopies (h.alloc ⟨1, 0, 0⟩).1 ⟨p, some h.blocks.length⟩ (n - 1)).2)
      (mkCopies (h.alloc ⟨1, 0, 0⟩).1 ⟨p, some h.blocks.length⟩ (n - 1)).1
      h.blocks.length 0
      (by
        intro c hc
        rcases List.mem_cons.mp hc with hc1 | hc1
        · rw [hc1]
        · rw [hm3 c hc1])
      (by rw [hlen]; exact hm1x)
      (by rw [hlen]; omega)
      (by rw [hlen]; omega)
  have hsc : scenarioC2 h p n
      = (destroyAll (mkCopies (h.alloc ⟨1, 0, 0⟩).1 ⟨p, some h.blocks.length⟩ (n - 1)).1
          ((⟨p, some h.blocks.length⟩ : SharedPtrST)
            :: (mkCopies (h.alloc ⟨1, 0, 0⟩).1 ⟨p, some h.blocks.length⟩ (n - 1)).2)).2 := by
    rw [scenarioC2, hfr]
  rw [hsc, htrace, hlen]
  refine ⟨rfl, ?_⟩
  simp [countHooks, List.filter_append, List.filter_replicate]

/-- Witness for C2 at `n = 2` over the empty heap. -/
theorem claim_C2_witness :
    1 ≤ 2 ∧ (2 : Nat) < sizeMod
    ∧ countHooks (scenarioC2 ⟨[]⟩ (some 1) 2) = 1 :=
  ⟨by norm_num, by norm_num [sizeMod],
   (claim_C2 ⟨[]⟩ (some 1) 2 (by norm_num) (by norm_num [sizeMod])).2⟩
